import Mathlib

/-!
Shallow embedding of the Arena Orchestration Engine of `agents-arena`
(Python sources under `src/agent_arena/`), covering the data model and the
operations referenced by the verified properties: the event bus
(`core/events.py`), the message log (`arena/channel.py`), the scoring and
step functions of the participant adapter (`agents/agent.py`), and the
scheduler (`arena/world.py`).

Conventions of the embedding:
- Python `float` quantities (scores, tendencies, wall-clock seconds) are
  modelled as `ℚ`; decimal literals are exact rationals.
- Wall-clock time is passed explicitly: a call that reads
  `datetime.now()` takes a `now : ℚ` argument, and `last_spoke_at`
  stores the rational timestamp at which the agent last spoke.
- Randomness is passed explicitly: `random.choice` becomes an arbitrary
  index `pick : Nat` reduced mod the list length, and the per-agent
  `random.random()` draws become a function `draws : Nat → ℚ` consumed
  positionally.
- Python string operations are modelled on the underlying character
  lists (`String.data`), which the kernel can evaluate; `str.lower()` is
  modelled for the ASCII range, which covers agent names and interests.
- Fallible or I/O-bound steps (the Anthropic API call inside
  `Agent.step`) are modelled by an explicit outcome argument.
-/

namespace AgentArena

/-- Agent status enum (`core/types.py`, class `AgentStatus`). -/
inductive AgentStatus where
  | idle
  | thinking
  | speaking
  | offline
deriving DecidableEq, Repr

/-- ASCII model of Python `str.lower()` on one character. -/
def lowerChar (c : Char) : Char :=
  if 'A' ≤ c && c ≤ 'Z' then Char.ofNat (c.toNat + 32) else c

/-- ASCII model of Python `str.lower()`. -/
def lowerStr (s : String) : String := ⟨s.data.map lowerChar⟩

/-- Whitespace test used to model Python `str.strip()`. -/
def wsChar (c : Char) : Bool := c = ' ' || c = '\t' || c = '\n' || c = '\r'

/-- Model of Python `str.strip()`: drop whitespace at both ends. -/
def trimStr (s : String) : String :=
  ⟨((s.data.dropWhile wsChar).reverse.dropWhile wsChar).reverse⟩

/-- Model of the Python substring test `needle in hay`. -/
def containsSub (needle hay : String) : Bool :=
  hay.data.tails.any (fun t => needle.data.isPrefixOf t)

/-- Message record (`core/message.py`, class `Message`), restricted to the
fields the scheduler and scorer read. `id`, `type`, `timestamp` and
`reply_to` are never consulted by the properties below and are omitted;
`mentions` is carried as the already-extracted list. -/
structure Message where
  sender_id : String
  sender_name : String
  content : String
  channel : String
  mentions : List String
deriving DecidableEq, Repr

/-- Python slice `xs[-k:]` for a non-negative `k`: the last `k` elements
when `k ≥ 1`, but the *whole* list when `k = 0` (Python `xs[-0:]` is
`xs[0:]`). -/
def pySliceLast {α : Type} (k : Nat) (xs : List α) : List α :=
  if k = 0 then xs else xs.drop (xs.length - k)

/-- Channel message log (`arena/channel.py`, class `Channel`), restricted
to the log itself and its bound; `id`, `name`, `description`, `topic`,
`members` and `created_at` play no role in the properties below. -/
structure Channel where
  messages : List Message
  max_history : Nat
deriving DecidableEq, Repr

/-- Model of `Channel.add_message`: append, then if the length exceeds
`max_history` trim with the Python slice `self.messages[-self.max_history:]`. -/
def Channel.add_message (self : Channel) (message : Message) : Channel :=
  let ms := self.messages ++ [message]
  if ms.length > self.max_history then
    { self with messages := pySliceLast self.max_history ms }
  else
    { self with messages := ms }

/-- Model of `Channel.get_recent_messages`: the Python slice `self.messages[-count:]`. -/
def Channel.get_recent_messages (self : Channel) (count : Nat) : List Message :=
  pySliceLast count self.messages

/-- Model of `Channel.clear_messages`: empty the log, return the prior count. -/
def Channel.clear_messages (self : Channel) : Nat × Channel :=
  (self.messages.length, { self with messages := [] })

/-- Event record (`core/events.py`, class `Event`); the opaque payload is
modelled as a string-keyed association list and the timestamp is dropped. -/
structure Event where
  type : String
  data : List (String × String)
deriving DecidableEq, Repr

/-- The event bus subscription table (`core/events.py`,
`EventBus._handlers`): a Python dict from event type to handler list, in
insertion order. Handlers are opaque and represented by numeric ids. -/
abbrev HandlerTable : Type := List (String × List Nat)

/-- The read `self._handlers.get(t, [])` as a pure value. -/
def lookupHandlers (tbl : HandlerTable) (t : String) : List Nat :=
  (List.lookup t tbl).getD []

/-- Model of `EventBus.subscribe`: create the key with an empty list if absent,
then append the handler. -/
def subscribe (tbl : HandlerTable) (event_type : String) (handler : Nat) :
    HandlerTable :=
  if (List.lookup event_type tbl).isSome then
    tbl.map (fun p => if p.1 = event_type then (p.1, p.2 ++ [handler]) else p)
  else
    tbl ++ [(event_type, [handler])]

/-- Model of `EventBus._dispatch`, faithful to the source's aliasing:
`handlers = self._handlers.get(event.type, [])` returns the *stored* list
object when the key is present, and `handlers.extend(self._handlers.get("*", []))`
then mutates that stored list in place. The result is the sequence of
handler ids invoked (in order) paired with the table as it stands after
the dispatch. -/
def dispatch (tbl : HandlerTable) (event_type : String) :
    List Nat × HandlerTable :=
  let invoked := lookupHandlers tbl event_type ++ lookupHandlers tbl ("*")
  if (List.lookup event_type tbl).isSome then
    (invoked, tbl.map (fun p => if p.1 = event_type then (p.1, invoked) else p))
  else
    (invoked, tbl)

/-- Participant adapter state (`agents/agent.py`, class `Agent`),
restricted to the fields the scheduler and scorer read and `step`
mutates; prompt/model configuration fields are omitted. Conversation
history entries are `(role, content)` pairs. The embedding models a
*connected* agent: `step` raises `RuntimeError` before touching any state
when `_client` is absent, so the disconnected case changes nothing. -/
structure Agent where
  name : String
  interests : List String
  response_tendency : ℚ
  id : String
  status : AgentStatus
  last_spoke_at : Option ℚ
  message_count : Nat
  conversation_history : List (String × String)
deriving DecidableEq, Repr

/-- The case-insensitive mention test of `Agent.should_respond` and the
scheduler: `self.name.lower() in [m.lower() for m in message.mentions]`. -/
def ciMentioned (name : String) (mentions : List String) : Bool :=
  (mentions.map lowerStr).contains (lowerStr name)

/-- The interest scan of `Agent.should_respond`: `for interest in
self.interests: if interest.lower() in content_lower: ... break`. -/
def interestMatch (interests : List String) (content : String) : Bool :=
  interests.any (fun interest => containsSub (lowerStr interest) (lowerStr content))

/-- Model of `Agent.should_respond(message, all_agents)` (`agents/agent.py`).
`now` stands for the `datetime.now()` read inside the recency check, so
`now - t` is `seconds_ago` for `last_spoke_at = some t`. The
`all_agents` argument is accepted and ignored, as in the source. -/
def Agent.should_respond (self : Agent) (message : Message)
    (all_agents : List String) (now : ℚ) : ℚ :=
  let base0 := self.response_tendency * 0.3
  if ciMentioned self.name message.mentions then
    min 0.95 (base0 + 0.6)
  else
    let base1 := if message.content.data.contains '?' then base0 + 0.15 else base0
    let base2 := if interestMatch self.interests message.content then base1 + 0.1 else base1
    let base3 :=
      match self.last_spoke_at with
      | none => base2
      | some t =>
        if now - t < 10 then base2 * 0.3
        else if now - t < 30 then base2 * 0.6
        else base2
    min 0.8 base3

/-- Outcome of the Anthropic API call inside `Agent.step`: either the
extracted response text, or any exception raised by the call or by the
response-content extraction. -/
inductive ApiResult where
  | ok (text : String)
  | error
deriving DecidableEq, Repr

/-- Model of `Agent.step(chat_context)` (`agents/agent.py`), for a connected
agent. The transient `THINKING`/`SPEAKING` assignments inside the `try`
block are overwritten by the `finally: self.status = IDLE`, so only the
state as of return is represented. Returns the optional response text
paired with the post-call agent state. -/
def Agent.step (self : Agent) (chat_context : String) (now : ℚ)
    (api : ApiResult) : Option String × Agent :=
  let user_message :=
    "Current conversation:\n\n" ++ chat_context ++ "\n\nNow respond as " ++
      self.name ++ ". Keep it brief (1-2 sentences). Just your response, nothing else."
  let hist0 := self.conversation_history ++ [("user", user_message)]
  let hist1 := if hist0.length > 40 then pySliceLast 40 hist0 else hist0
  match api with
  | .error =>
    (none, { self with conversation_history := hist1, status := .idle })
  | .ok text =>
    let response_text := trimStr text
    let hist2 := hist1 ++ [("assistant", response_text)]
    if response_text = "[PASS]" then
      (none, { self with conversation_history := hist2, status := .idle })
    else
      (some response_text,
       { self with conversation_history := hist2, status := .idle,
                   last_spoke_at := some now,
                   message_count := self.message_count + 1 })

/-- Model of `Agent.respond(context)`: alias for `Agent.step`. -/
def Agent.respond (self : Agent) (context : String) (now : ℚ)
    (api : ApiResult) : Option String × Agent :=
  self.step context now api

/-- Arena state (`arena/world.py`, class `ArenaWorld`), restricted to the
observable fields the verified properties mention. Channels are the
Python dict `name ↦ Channel` in insertion order; the registry is its
agent list in insertion order; `bus_running` stands for the event bus's
`_running` flag, toggled by `ArenaWorld.start`/`ArenaWorld.stop`. -/
structure ArenaWorld where
  channels : List (String × Channel)
  running : Bool
  current_round : Nat
  start_time : Option ℚ
  registry : List Agent
  mode : String
  bus_running : Bool
deriving DecidableEq, Repr

/-- Model of `ArenaWorld.broadcast(message)`: look the channel up by the message's
channel name; on a miss, log a warning and return (no state change, no
event); on a hit, append to that channel's history and emit one
`message` event. Returns the new state and the emitted events. -/
def ArenaWorld.broadcast (self : ArenaWorld) (message : Message) :
    ArenaWorld × List Event :=
  match List.lookup message.channel self.channels with
  | none => (self, [])
  | some channel =>
    let channel' := channel.add_message message
    ({ self with channels :=
        self.channels.map (fun p => if p.1 = message.channel then (p.1, channel') else p) },
     [{ type := "message", data := [("channel", message.channel)] }])

/-- Model of `ArenaWorld.start()`: early-return if already running; otherwise set
the running flag and start time, start the event bus, and emit
`simulation_started`. The spawned scheduler task itself is not state. -/
def ArenaWorld.start (self : ArenaWorld) (now : ℚ) : ArenaWorld × List Event :=
  if self.running then (self, [])
  else
    ({ self with running := true, start_time := some now, bus_running := true },
     [{ type := "simulation_started", data := [("mode", self.mode)] }])

/-- Model of `ArenaWorld.stop()`: early-return if not running; otherwise clear the
running flag, stop the event bus, and emit `simulation_stopped`. -/
def ArenaWorld.stop (self : ArenaWorld) : ArenaWorld × List Event :=
  if !self.running then (self, [])
  else
    ({ self with running := false, bus_running := false },
     [{ type := "simulation_stopped", data := [("rounds", toString self.current_round)] }])

/-- The Bernoulli inclusion loop of `_select_speakers`: walk the scored
eligible agents in order, drawing `random.random()` (here `draws i`) per
agent, and keep those with `draws i < probability`. -/
def pickCandidates (draws : Nat → ℚ) : Nat → List (ℚ × Agent) → List (ℚ × Agent)
  | _, [] => []
  | i, p :: ps =>
    if draws i < p.1 then p :: pickCandidates draws (i + 1) ps
    else pickCandidates draws (i + 1) ps

/-- Stable insertion step for the descending sort modelling Python's
stable `candidates.sort(key=lambda x: x[0], reverse=True)`. -/
def insertDesc (x : ℚ × Agent) : List (ℚ × Agent) → List (ℚ × Agent)
  | [] => [x]
  | y :: ys => if x.1 ≤ y.1 then y :: insertDesc x ys else x :: y :: ys

/-- Stable descending sort by score (first component). -/
def sortDesc : List (ℚ × Agent) → List (ℚ × Agent)
  | [] => []
  | x :: xs => insertDesc x (sortDesc xs)

/-- Model of `ArenaWorld._select_speakers` (`arena/world.py`): with an empty log,
return one agent chosen from the whole registry (`random.choice`,
modelled by the arbitrary index `pick`); otherwise score every IDLE
agent other than the last message's sender, include each with an
independent draw, and return the candidates sorted by score descending. -/
def select_speakers (agents : List Agent) (log : List Message)
    (names : List String) (now : ℚ) (pick : Nat) (draws : Nat → ℚ) : List Agent :=
  match log.getLast? with
  | none =>
    match agents with
    | [] => []
    | a :: rest =>
      [(a :: rest).get ⟨pick % (a :: rest).length, Nat.mod_lt _ (Nat.succ_pos _)⟩]
  | some last_message =>
    let eligible := agents.filter
      (fun a => a.status == AgentStatus.idle && a.id != last_message.sender_id)
    let scored := eligible.map
      (fun a => (a.should_respond last_message names now, a))
    let candidates := pickCandidates draws 0 scored
    (sortDesc candidates).map (fun p => p.2)

/-! ### Concrete fixtures used by counterexamples and witnesses -/

/-- A plain chat message with no mentions, no question mark. -/
def msgA : Message :=
  { sender_id := "u1", sender_name := "Uma", content := "hello there",
    channel := "general", mentions := [] }

/-- A second plain chat message. -/
def msgB : Message :=
  { sender_id := "u2", sender_name := "Vic", content := "good morning",
    channel := "general", mentions := [] }

/-- A third plain chat message. -/
def msgC : Message :=
  { sender_id := "u3", sender_name := "Wu", content := "nice day",
    channel := "general", mentions := [] }

/-- A message mentioning Alice. -/
def msgMention : Message :=
  { sender_id := "u1", sender_name := "Uma", content := "hey @Alice",
    channel := "general", mentions := ["Alice"] }

/-- A message mentioning bob (lowercase), with a question mark and an
interest keyword in the content. -/
def msgBob : Message :=
  { sender_id := "u1", sender_name := "Uma", content := "what about tea, @bob?",
    channel := "general", mentions := ["bob"] }

/-- A message addressed to a channel name no Channel has. -/
def msgNowhere : Message :=
  { sender_id := "u1", sender_name := "Uma", content := "hi",
    channel := "nowhere", mentions := [] }

/-- An idle agent with maximal response tendency. -/
def alice : Agent :=
  { name := "Alice", interests := [], response_tendency := 1, id := "alice",
    status := .idle, last_spoke_at := none, message_count := 0,
    conversation_history := [] }

/-- An idle agent with tendency 0.5 and one interest. -/
def bob : Agent :=
  { name := "Bob", interests := ["tea"], response_tendency := 0.5, id := "bob",
    status := .idle, last_spoke_at := none, message_count := 0,
    conversation_history := [] }

/-- A registered agent that is not IDLE. -/
def zed : Agent :=
  { name := "Zed", interests := [], response_tendency := 0, id := "zed",
    status := .offline, last_spoke_at := none, message_count := 0,
    conversation_history := [] }

/-- A running arena with one empty channel. -/
def wRun : ArenaWorld :=
  { channels := [("general", { messages := [], max_history := 1000 })],
    running := true, current_round := 3, start_time := some 0, registry := [],
    mode := "hybrid", bus_running := true }

/-- The same arena, stopped. -/
def wStop : ArenaWorld :=
  { wRun with running := false, bus_running := false }

/-- A bus with handler 0 subscribed to type `message` and handler 1
subscribed to the wildcard type. -/
def busC1 : HandlerTable := subscribe (subscribe [] "message" 0) "*" 1

/-! ### Helper lemmas -/

/-- Membership after `insertDesc` comes from the inserted element or the list. -/
theorem mem_insertDesc {x y : ℚ × Agent} {l : List (ℚ × Agent)}
    (h : x ∈ insertDesc y l) : x = y ∨ x ∈ l := by
  induction l with
  | nil =>
    simp only [insertDesc, List.mem_singleton] at h
    exact Or.inl h
  | cons z zs ih =>
    rw [insertDesc] at h
    by_cases hc : y.1 ≤ z.1
    · rw [if_pos hc] at h
      rcases List.mem_cons.mp h with h1 | h2
      · exact Or.inr (List.mem_cons.mpr (Or.inl h1))
      · rcases ih h2 with h3 | h4
        · exact Or.inl h3
        · exact Or.inr (List.mem_cons.mpr (Or.inr h4))
    · rw [if_neg hc] at h
      rcases List.mem_cons.mp h with h1 | h2
      · exact Or.inl h1
      · exact Or.inr h2

/-- The sort `sortDesc` only permutes: members of the sorted list are members of
the input. -/
theorem mem_sortDesc {x : ℚ × Agent} :
    ∀ {l : List (ℚ × Agent)}, x ∈ sortDesc l → x ∈ l := by
  intro l
  induction l with
  | nil => intro h; simpa [sortDesc] using h
  | cons y ys ih =>
    intro h
    rw [sortDesc] at h
    rcases mem_insertDesc h with h1 | h2
    · exact List.mem_cons.mpr (Or.inl h1)
    · exact List.mem_cons.mpr (Or.inr (ih h2))

/-- The Bernoulli inclusion loop only filters: members of its output are
members of its input. -/
theorem mem_pickCandidates {draws : Nat → ℚ} {x : ℚ × Agent} :
    ∀ {l : List (ℚ × Agent)} {i : Nat}, x ∈ pickCandidates draws i l → x ∈ l := by
  intro l
  induction l with
  | nil => intro i h; simpa [pickCandidates] using h
  | cons p ps ih =>
    intro i h
    rw [pickCandidates] at h
    by_cases hc : draws i < p.1
    · rw [if_pos hc] at h
      rcases List.mem_cons.mp h with h1 | h2
      · exact List.mem_cons.mpr (Or.inl h1)
      · exact List.mem_cons.mpr (Or.inr (ih h2))
    · rw [if_neg hc] at h
      exact List.mem_cons.mpr (Or.inr (ih h))

/-! ### Claim theorems -/

/-- Claim C1 (code bug): `EventBus._dispatch` aliases the stored handler
list, so dispatching an event whose type has subscribers permanently
appends the wildcard handlers to that type's stored list. On the bus
with handler 0 on `message` and handler 1 on `*`, the first dispatch of
a `message` event rewrites the stored `message` entry to `[0, 1]`, and a
second dispatch then invokes the wildcard handler 1 twice — contradicting
both "every subscribed handler invoked exactly once per event" and
"dispatching does not change the stored subscription table". -/
theorem dispatch_mutates_subscription_table :
    (dispatch busC1 ("message")).2 = [("message", [0, 1]), ("*", [1])] ∧
    (dispatch (dispatch busC1 ("message")).2 ("message")).1 = [0, 1, 1] := by
  constructor <;> rfl

/-- Claim C2, counterexample: with an empty log, `_select_speakers` picks
`random.choice(self.registry.all())` with no status filter, so a
registered agent that is OFFLINE is returned as the candidate. -/
theorem select_speakers_icebreaker_counterexample :
    select_speakers [zed] [] [] 0 0 (fun _ => 0) = [zed] ∧
    zed.status ≠ AgentStatus.idle := by
  constructor
  · rfl
  · decide

/-- Claim C2 (amended): when the channel log is non-empty, every agent in
the list returned by `_select_speakers` has status IDLE; with an empty
log the icebreaker is drawn from all registered agents regardless of
status. -/
theorem select_speakers_nonempty_log_idle (agents : List Agent)
    (log : List Message) (names : List String) (now : ℚ) (pick : Nat)
    (draws : Nat → ℚ) (hlog : log ≠ []) :
    (select_speakers agents log names now pick draws).all
      (fun a => a.status == AgentStatus.idle) = true := by
  rw [List.all_eq_true]
  intro a ha
  rw [beq_iff_eq]
  obtain ⟨last, hlast⟩ : ∃ m, log.getLast? = some m := by
    cases h : log.getLast? with
    | none => exact absurd (List.getLast?_eq_none_iff.mp h) hlog
    | some m => exact ⟨m, rfl⟩
  unfold select_speakers at ha
  rw [hlast] at ha
  simp only [List.mem_map] at ha
  obtain ⟨p, hp, hpa⟩ := ha
  have hp2 := mem_pickCandidates (mem_sortDesc hp)
  simp only [List.mem_map] at hp2
  obtain ⟨b, hb, hbp⟩ := hp2
  rw [List.mem_filter] at hb
  have hstat := hb.2
  simp only [Bool.and_eq_true, beq_iff_eq, bne_iff_ne] at hstat
  have : p.2 = b := by rw [← hbp]
  rw [← hpa, this]
  exact hstat.1

/-- Claim C2 witness: a concrete non-empty-log call on which the amended
statement evaluates. -/
theorem select_speakers_nonempty_log_idle_witness :
    (select_speakers [bob] [msgA] [] 0 0 (fun _ => 1)).all
      (fun a => a.status == AgentStatus.idle) = true :=
  select_speakers_nonempty_log_idle [bob] [msgA] [] 0 0 (fun _ => 1) (by simp)

/-- Claim C3, counterexample: broadcasting to a channel name that names
no Channel returns normally with the arena unchanged and no event
emitted — the failure is logged but not surfaced to the caller. -/
theorem broadcast_unknown_channel_counterexample :
    wRun.broadcast msgNowhere = (wRun, []) := by rfl

/-- Claim C3 (amended): `ArenaWorld.broadcast` on a message whose channel
name names no existing Channel is a silent no-op apart from a logged
warning: it returns normally, appends nothing, and emits no event. -/
theorem broadcast_unknown_channel_noop (w : ArenaWorld) (m : Message)
    (h : List.lookup m.channel w.channels = none) :
    w.broadcast m = (w, []) := by
  unfold ArenaWorld.broadcast
  rw [h]

/-- Claim C3 witness: the no-op behaviour at a concrete arena and
message. -/
theorem broadcast_unknown_channel_noop_witness :
    wStop.broadcast msgNowhere = (wStop, []) :=
  broadcast_unknown_channel_noop wStop msgNowhere (by rfl)

/-- Claim C9: `stop()` on a non-running arena and `start()` on a running
arena are no-ops — the state (running, current_round, start_time,
channels, registry) is returned unchanged and no lifecycle event is
emitted. -/
theorem start_stop_idempotent (w : ArenaWorld) (now : ℚ) :
    (w.running = true → w.start now = (w, [])) ∧
    (w.running = false → w.stop = (w, [])) := by
  constructor
  · intro h
    unfold ArenaWorld.start
    rw [if_pos h]
  · intro h
    unfold ArenaWorld.stop
    rw [h]
    rfl

/-- Claim C9 witness: the no-ops at a concrete running arena and a
concrete stopped arena. -/
theorem start_stop_idempotent_witness :
    wRun.start 0 = (wRun, []) ∧ wStop.stop = (wStop, []) :=
  ⟨(start_stop_idempotent wRun 0).1 rfl, (start_stop_idempotent wStop 0).2 rfl⟩

/-- For a positive bound, any `foldl` of `add_message` over a channel
whose current log fits the bound retains exactly the last `max_history`
elements of the total appended sequence. -/
theorem foldl_add_message_messages (h : Nat) (hpos : 1 ≤ h) :
    ∀ (ms acc : List Message), acc.length ≤ h →
      (ms.foldl Channel.add_message { messages := acc, max_history := h }).messages
        = (acc ++ ms).drop ((acc ++ ms).length - h) := by
  intro ms
  induction ms with
  | nil =>
    intro acc hacc
    simp only [List.foldl_nil, List.append_nil]
    rw [Nat.sub_eq_zero_of_le hacc, List.drop_zero]
  | cons m rest ih =>
    intro acc hacc
    rw [List.foldl_cons]
    by_cases hlen : (acc ++ [m]).length > h
    · have hacclen : acc.length = h := by
        simp only [List.length_append, List.length_singleton] at hlen
        omega
      have hstep : Channel.add_message { messages := acc, max_history := h } m
          = { messages := (acc ++ [m]).drop 1, max_history := h } := by
        unfold Channel.add_message
        rw [if_pos hlen]
        unfold pySliceLast
        rw [if_neg (by omega : ¬ h = 0)]
        have : (acc ++ [m]).length - h = 1 := by
          simp only [List.length_append, List.length_singleton, hacclen]
          omega
        rw [this]
      rw [hstep]
      have hdlen : ((acc ++ [m]).drop 1).length ≤ h := by
        rw [List.length_drop]
        simp only [List.length_append, List.length_singleton, hacclen]
        omega
      rw [ih _ hdlen]
      have hjoin : (acc ++ [m]).drop 1 ++ rest = ((acc ++ [m]) ++ rest).drop 1 := by
        rw [List.drop_append_of_le_length
          (show 1 ≤ (acc ++ [m]).length by simp)]
      rw [hjoin, List.drop_drop]
      have hassoc : (acc ++ [m]) ++ rest = acc ++ m :: rest := by
        rw [List.append_assoc, List.singleton_append]
      rw [hassoc]
      congr 1
      rw [List.length_drop]
      simp only [List.length_append, List.length_cons, List.length_singleton, hacclen]
      omega
    · have hstep : Channel.add_message { messages := acc, max_history := h } m
          = { messages := acc ++ [m], max_history := h } := by
        unfold Channel.add_message
        rw [if_neg hlen]
      rw [hstep, ih _ (by omega : (acc ++ [m]).length ≤ h)]
      have hassoc : (acc ++ [m]) ++ rest = acc ++ m :: rest := by
        rw [List.append_assoc, List.singleton_append]
      rw [hassoc]

/-- Claim C6, counterexample: a Channel with `max_history = 0` never
trims, because the Python slice `self.messages[-0:]` is the whole list;
a single `add_message` leaves the log length 1 > 0. -/
theorem channel_zero_history_counterexample :
    ¬ ((({ messages := [], max_history := 0 } : Channel).add_message msgA).messages.length
        ≤ ({ messages := [], max_history := 0 } : Channel).max_history) := by
  decide

/-- Claim C6 (amended): for every Channel with positive `max_history`,
after any sequence of `add_message` calls starting from an empty log the
retained list is the suffix of the appended sequence of length
`min(total, max_history)` in append order, and in particular the length
stays within the bound. -/
theorem channel_bounded_history (h : Nat) (hpos : 1 ≤ h) (ms : List Message) :
    (ms.foldl Channel.add_message { messages := [], max_history := h }).messages
      = ms.drop (ms.length - h) ∧
    (ms.foldl Channel.add_message { messages := [], max_history := h }).messages.length
      ≤ h := by
  have h1 := foldl_add_message_messages h hpos ms [] (by simp)
  simp only [List.nil_append] at h1
  refine ⟨h1, ?_⟩
  rw [h1, List.length_drop]
  omega

/-- Claim C6 witness: three messages into a bound of two retain the last
two in order. -/
theorem channel_bounded_history_witness :
    ([msgA, msgB, msgC].foldl Channel.add_message
        { messages := [], max_history := 2 }).messages = [msgB, msgC] ∧
    ([msgA, msgB, msgC].foldl Channel.add_message
        { messages := [], max_history := 2 }).messages.length ≤ 2 := by
  have h := channel_bounded_history 2 (by omega) [msgA, msgB, msgC]
  exact ⟨by rw [h.1]; rfl, h.2⟩

/-- Claim C7, counterexample: `get_recent_messages(0)` is the Python
slice `self.messages[-0:]`, which is the whole log, not the empty list. -/
theorem get_recent_zero_counterexample :
    Channel.get_recent_messages { messages := [msgA], max_history := 1000 } 0 ≠ [] := by
  decide

/-- Claim C7 (amended): for `n ≥ 1`, `get_recent_messages(n)` is exactly
the suffix of the log of length `min n (log length)` — the last `n`
messages in chronological order, or the whole log when it is shorter;
for `n = 0` it returns the whole log, not the empty list. -/
theorem get_recent_messages_suffix (c : Channel) (n : Nat) :
    (1 ≤ n →
      (c.get_recent_messages n).length = min n c.messages.length ∧
      c.messages.take (c.messages.length - n) ++ c.get_recent_messages n
        = c.messages) ∧
    (n = 0 → c.get_recent_messages n = c.messages) := by
  constructor
  · intro hn
    unfold Channel.get_recent_messages pySliceLast
    rw [if_neg (by omega : ¬ n = 0)]
    constructor
    · rw [List.length_drop]
      omega
    · exact List.take_append_drop _ _
  · intro hn
    subst hn
    unfold Channel.get_recent_messages pySliceLast
    rw [if_pos rfl]

/-- Claim C7 witness: the last one of two messages, at `n = 1`. -/
theorem get_recent_messages_suffix_witness :
    ((({ messages := [msgA, msgB], max_history := 1000 } : Channel).get_recent_messages 1).length
      = min 1 ([msgA, msgB] : List Message).length) ∧
    (([msgA, msgB] : List Message).take (([msgA, msgB] : List Message).length - 1) ++
        ({ messages := [msgA, msgB], max_history := 1000 } : Channel).get_recent_messages 1
      = [msgA, msgB]) :=
  (get_recent_messages_suffix { messages := [msgA, msgB], max_history := 1000 } 1).1
    (by omega)

/-- Arithmetic core of the recency-suppression claim: capping at 0.8
commutes with the 0.3 factor while both quantities stay under the cap. -/
theorem min_mul_point3 (B : ℚ) (hB : B ≤ 0.8) (hB3 : B * 0.3 ≤ 0.8) :
    min 0.8 (B * 0.3) = 0.3 * min 0.8 B := by
  rw [min_eq_right hB3, min_eq_right hB]
  ring

/-- Claim C4, counterexample: an IDLE agent with `response_tendency = 1`
that is mentioned scores `min(0.95, 1*0.3 + 0.6) = 0.9`, outside the
claimed interval [0, 0.8]. -/
theorem should_respond_above_cap_counterexample :
    alice.should_respond msgMention [] 0 = 0.9 ∧
    ¬ (alice.should_respond msgMention [] 0 ≤ 0.8) := by
  have hv : alice.should_respond msgMention [] 0 = 0.9 := by
    simp only [Agent.should_respond]
    rw [if_pos (by decide : ciMentioned alice.name msgMention.mentions = true)]
    have h1 : alice.response_tendency = 1 := rfl
    have hle : (1 : ℚ) * 0.3 + 0.6 ≤ 0.95 := by norm_num
    rw [h1, min_eq_right hle]
    norm_num
  exact ⟨hv, by rw [hv]; norm_num⟩

/-- Claim C4 (amended): for every participant with
`response_tendency ∈ [0, 1]` and every message, `should_respond` returns
a value in [0, 0.9] (the mention branch caps at `min 0.95 (0.3·t + 0.6)
≤ 0.9`; the non-mention branch caps at 0.8). -/
theorem should_respond_range (a : Agent) (m : Message) (ns : List String)
    (now : ℚ) (h0 : 0 ≤ a.response_tendency) (h1 : a.response_tendency ≤ 1) :
    0 ≤ a.should_respond m ns now ∧ a.should_respond m ns now ≤ 0.9 := by
  simp only [Agent.should_respond]
  by_cases hm : ciMentioned a.name m.mentions = true
  · rw [if_pos hm]
    constructor
    · exact le_min (by norm_num) (by linarith)
    · exact le_trans (min_le_right _ _) (by linarith)
  · rw [if_neg hm]
    refine ⟨le_min (by norm_num) ?_, le_trans (min_le_left _ _) (by norm_num)⟩
    rcases hs : a.last_spoke_at with _ | t
    · dsimp only
      split_ifs <;> linarith
    · dsimp only
      split_ifs <;> linarith

/-- Claim C4 witness: the bounds at a concrete agent and message. -/
theorem should_respond_range_witness :
    0 ≤ alice.should_respond msgMention [] 0 ∧
    alice.should_respond msgMention [] 0 ≤ 0.9 :=
  should_respond_range alice msgMention [] 0 (by norm_num [alice]) (by norm_num [alice])

/-- Claim C5: a participant with tendency 0.5 and no recorded
`last_spoke_at` whose name appears case-insensitively in the mentions
scores exactly `min(0.95, 0.5*0.3 + 0.6) = 0.75`, whatever the content
contains — the mention branch returns before the question-mark,
interest, and recency adjustments. -/
theorem mention_short_circuit_exact (a : Agent) (m : Message)
    (ns : List String) (now : ℚ) (ht : a.response_tendency = 0.5)
    (hs : a.last_spoke_at = none)
    (hm : ciMentioned a.name m.mentions = true) :
    a.should_respond m ns now = 0.75 := by
  simp only [Agent.should_respond]
  rw [if_pos hm, ht]
  have hle : (0.5 : ℚ) * 0.3 + 0.6 ≤ 0.95 := by norm_num
  rw [min_eq_right hle]
  norm_num

/-- Claim C5 witness: Bob (tendency 0.5, never spoke) mentioned as
`@bob` in a message that also contains a question mark and Bob's
interest keyword still scores exactly 0.75. -/
theorem mention_short_circuit_exact_witness :
    bob.should_respond msgBob [] 0 = 0.75 :=
  mention_short_circuit_exact bob msgBob [] 0 rfl rfl (by decide)

/-- Claim C8: a non-mentioned participant whose `last_spoke_at` lies 5
seconds before scoring time scores exactly 0.3 times the score of the
identical participant with no `last_spoke_at`, all else equal (the
spoke-within-10s branch multiplies the pre-recency score by 0.3, and
both quantities stay under the 0.8 cap while the tendency is in [0, 1]). -/
theorem recency_suppression_factor (a : Agent) (m : Message)
    (ns : List String) (now : ℚ) (h0 : 0 ≤ a.response_tendency)
    (h1 : a.response_tendency ≤ 1)
    (hm : ciMentioned a.name m.mentions = false)
    (hs : a.last_spoke_at = some (now - 5)) :
    a.should_respond m ns now
      = 0.3 * Agent.should_respond { a with last_spoke_at := none } m ns now := by
  simp only [Agent.should_respond, hs, Bool.false_eq_true, hm, if_false]
  have h5 : now - (now - 5) = (5 : ℚ) := by ring
  rw [h5]
  rw [if_pos (show (5 : ℚ) < 10 by norm_num)]
  apply min_mul_point3 <;> split_ifs <;> linarith

/-- Claim C8 witness: the factor at a concrete agent, message and time. -/
theorem recency_suppression_factor_witness :
    Agent.should_respond { bob with last_spoke_at := some (10 - 5) } msgA [] 10
      = 0.3 * Agent.should_respond
          { { bob with last_spoke_at := some (10 - 5) } with last_spoke_at := none }
          msgA [] 10 :=
  recency_suppression_factor { bob with last_spoke_at := some (10 - 5) } msgA [] 10
    (by norm_num [bob]) (by norm_num [bob]) (by decide) rfl

/-- Claim C10: after any completed `Agent.step` call on a connected
agent the returned state has status IDLE (the `finally` block overwrites
the transient THINKING/SPEAKING), and `last_spoke_at`/`message_count`
change exactly on the non-pass success path: unchanged whenever the call
returns `none` (API failure or `[PASS]`), set to the call time and
incremented whenever it returns text. -/
theorem step_restores_idle (a : Agent) (ctx : String) (now : ℚ)
    (api : ApiResult) :
    (a.step ctx now api).2.status = AgentStatus.idle ∧
    ((a.step ctx now api).1 = none →
      (a.step ctx now api).2.last_spoke_at = a.last_spoke_at ∧
      (a.step ctx now api).2.message_count = a.message_count) ∧
    (∀ t, (a.step ctx now api).1 = some t →
      (a.step ctx now api).2.last_spoke_at = some now ∧
      (a.step ctx now api).2.message_count = a.message_count + 1) := by
  cases api with
  | error =>
    exact ⟨rfl, fun _ => ⟨rfl, rfl⟩, fun t ht => Option.noConfusion ht⟩
  | ok text =>
    by_cases hp : trimStr text = "[PASS]"
    · exact ⟨by simp [Agent.step, hp],
        fun _ => by constructor <;> simp [Agent.step, hp],
        fun t ht => by simp [Agent.step, hp] at ht⟩
    · exact ⟨by simp [Agent.step, hp],
        fun hn => by simp [Agent.step, hp] at hn,
        fun t ht => by constructor <;> simp [Agent.step, hp]⟩

/-- Claim C10 witness: the invariant at a concrete agent for a failing
call and for a successful call. -/
theorem step_restores_idle_witness :
    ((bob.step "ctx" 0 ApiResult.error).2.status = AgentStatus.idle ∧
     (bob.step "ctx" 0 ApiResult.error).2.message_count = bob.message_count) ∧
    ((bob.step "ctx" 0 (ApiResult.ok "hello")).2.message_count
        = bob.message_count + 1 ∧
     (bob.step "ctx" 0 (ApiResult.ok "hello")).2.last_spoke_at = some 0) := by
  refine ⟨⟨(step_restores_idle bob "ctx" 0 .error).1,
    ((step_restores_idle bob "ctx" 0 .error).2.1 rfl).2⟩, ?_⟩
  have h := (step_restores_idle bob "ctx" 0 (.ok "hello")).2.2 "hello" (by rfl)
  exact ⟨h.2, h.1⟩

end AgentArena
